import Mathlib

/-!
Verification of `fix_photo_dates.py` (iCloud photo timestamp restorer).

The development shallowly embeds the program:
  - the fixed date formats
      DATE_FORMAT   = "%A %B %d,%Y %I:%M %p GMT"
      OUTPUT_FORMAT = "%d.%m.%Y %H:%M"
    are embedded as an executable strptime-style matcher `parseDT`
    (mirroring `pd.to_datetime(raw, format=DATE_FORMAT)`) and a renderer
    `strftimeOut` (mirroring `original_dt.strftime(OUTPUT_FORMAT)`);
  - the merged metadata table is `DataFrame` (column presence flags plus the
    rows in concatenation order), lookup mirroring
    `df[df["imgName"] == filename]["originalCreationDate"]` with `.empty`
    test and `.iloc[0]`;
  - the per-file loop of `fix_dates` is a fold over the folder listing with
    an explicit run state (files, success and error counters, printed log);
  - `load_metadata` and `main` are embedded over an abstract folder, with
    CSV reading fallible as `pd.read_csv` is (it raises EmptyDataError on an
    empty file and ParserError on rows wider than the header).

Timestamps are modelled as the string values the program writes (the code
assigns the formatted string to `f.created` and `f.modified`); file contents
are opaque strings.
-/

namespace FixPhotoDates

/-! ## Date-time values and the two fixed formats -/

/-- A parsed date-time value (the instant returned by `pd.to_datetime`):
`hour` is the 24-hour clock hour. -/
structure DateTime where
  year : Nat
  month : Nat
  day : Nat
  hour : Nat
  minute : Nat
deriving DecidableEq, Repr

/-- `DATE_FORMAT` from the source, the strptime pattern for iCloud CSV dates. -/
def DATE_FORMAT : String := "%A %B %d,%Y %I:%M %p GMT"

/-- `OUTPUT_FORMAT` from the source, the strftime pattern for the value written
to the file timestamps. -/
def OUTPUT_FORMAT : String := "%d.%m.%Y %H:%M"

/-- Split a character list at the first occurrence of `c`: returns the part
before it and the part after it, or `none` when `c` does not occur.  This is
how the literal separators of `DATE_FORMAT` cut the input. -/
def splitAtChar (c : Char) : List Char → Option (List Char × List Char)
  | [] => none
  | x :: xs =>
    if x = c then some ([], xs)
    else
      match splitAtChar c xs with
      | some (pre, post) => some (x :: pre, post)
      | none => none

/-- Character-wise lowercasing (strptime matches names case-insensitively). -/
def lowerStr (cs : List Char) : List Char := cs.map Char.toLower

/-- Numeric value of an all-digit token, `none` otherwise. -/
def parseDigits (cs : List Char) : Option Nat :=
  if cs ≠ [] ∧ cs.all Char.isDigit then
    some (cs.foldl (fun a c => a * 10 + (c.toNat - 48)) 0)
  else none

/-- The full weekday names matched by `%A` (C locale), lowercased. -/
def weekdayNames : List (List Char) :=
  ["monday".data, "tuesday".data, "wednesday".data, "thursday".data,
   "friday".data, "saturday".data, "sunday".data]

def isWeekdayName (cs : List Char) : Bool := weekdayNames.contains (lowerStr cs)

/-- The full month names matched by `%B` (C locale), lowercased, with their
month numbers. -/
def monthTable : List (List Char × Nat) :=
  [("january".data, 1), ("february".data, 2), ("march".data, 3),
   ("april".data, 4), ("may".data, 5), ("june".data, 6), ("july".data, 7),
   ("august".data, 8), ("september".data, 9), ("october".data, 10),
   ("november".data, 11), ("december".data, 12)]

/-- The month number (1..12) of an already-lowercased full month name. -/
def monthNum (l : List Char) : Option Nat :=
  (monthTable.find? (fun p => p.1 == l)).map Prod.snd

/-- The month number (1..12) of a full month name matched by `%B`. -/
def monthIndex (cs : List Char) : Option Nat := monthNum (lowerStr cs)

/-- `%p`: `false` for AM, `true` for PM (case-insensitive). -/
def parseAmPm (cs : List Char) : Option Bool :=
  if lowerStr cs = "am".data then some false
  else if lowerStr cs = "pm".data then some true
  else none

/-- 12-hour clock plus AM/PM marker to 24-hour clock, as `%I`/`%p` combine. -/
def to24 (h12 : Nat) (pm : Bool) : Nat :=
  if pm then (if h12 = 12 then 12 else h12 + 12)
  else (if h12 = 12 then 0 else h12)

def isLeapYear (y : Nat) : Bool :=
  (y % 4 == 0 && y % 100 != 0) || (y % 400 == 0)

/-- Number of days of month `m` of year `y` (strptime validates the day
against the month when building the datetime value). -/
def daysInMonth (y m : Nat) : Nat :=
  if m = 2 then (if isLeapYear y then 29 else 28)
  else if m = 4 ∨ m = 6 ∨ m = 9 ∨ m = 11 then 30
  else 31

/-- `pd.to_datetime(raw, format=DATE_FORMAT)` embedded: match
weekday-name, space, month-name, space, 1-2 digit day, comma, 4-digit year,
space, 1-2 digit hour (1..12), colon, 1-2 digit minute (0..59), space, AM/PM,
space, literal GMT; validate the day against the month and keep the year
inside the pandas `Timestamp` range (modelled by the conservative inner
bounds 1678..2261; outside them `pd.to_datetime` raises OutOfBoundsDatetime).
Returns the denoted instant with the 24-hour clock hour. -/
def parseDT (s : String) : Option DateTime :=
  match splitAtChar ' ' s.data with
  | none => none
  | some (wd, r1) =>
  if isWeekdayName wd then
    match splitAtChar ' ' r1 with
    | none => none
    | some (mon, r2) =>
    match monthIndex mon with
    | none => none
    | some mi =>
    match splitAtChar ',' r2 with
    | none => none
    | some (dstr, r3) =>
    if dstr.length ≤ 2 then
      match parseDigits dstr with
      | none => none
      | some d =>
      match splitAtChar ' ' r3 with
      | none => none
      | some (ystr, r4) =>
      if ystr.length = 4 then
        match parseDigits ystr with
        | none => none
        | some y =>
        match splitAtChar ':' r4 with
        | none => none
        | some (hstr, r5) =>
        if hstr.length ≤ 2 then
          match parseDigits hstr with
          | none => none
          | some h12 =>
          match splitAtChar ' ' r5 with
          | none => none
          | some (mstr, r6) =>
          if mstr.length ≤ 2 then
            match parseDigits mstr with
            | none => none
            | some mn =>
            match splitAtChar ' ' r6 with
            | none => none
            | some (ap, r7) =>
            match parseAmPm ap with
            | none => none
            | some pm =>
            if lowerStr r7 = "gmt".data ∧
                1 ≤ d ∧ d ≤ daysInMonth y mi ∧
                1 ≤ h12 ∧ h12 ≤ 12 ∧ mn ≤ 59 ∧
                1678 ≤ y ∧ y ≤ 2261 then
              some ⟨y, mi, d, to24 h12 pm, mn⟩
            else none
          else none
        else none
      else none
    else none
  else none

/-- Zero-pad a number to two digits, as `%d`, `%m`, `%H`, `%M` do. -/
def pad2 (n : Nat) : String := if n < 10 then "0" ++ toString n else toString n

/-- `original_dt.strftime(OUTPUT_FORMAT)` embedded: zero-padded
day dot month dot year, space, zero-padded 24-hour hour colon minute.
`%Y` renders the year with `toString`; every year reaching this point is
four digits wide (1678..2261). -/
def strftimeOut (dt : DateTime) : String :=
  pad2 dt.day ++ "." ++ pad2 dt.month ++ "." ++ toString dt.year ++ " " ++
    pad2 dt.hour ++ ":" ++ pad2 dt.minute

/-- Lines 103-104 of the source: parse the raw CSV date and render the
output-format string that the program writes to the timestamps. -/
def computeOutput (raw : String) : Option String :=
  (parseDT raw).map strftimeOut

/-- Zero-pad a number to four digits. -/
def pad4 (n : Nat) : String :=
  if n < 10 then "000" ++ toString n
  else if n < 100 then "00" ++ toString n
  else if n < 1000 then "0" ++ toString n
  else toString n

/-- Modelled from the words of the spec, for comparison with `strftimeOut`:
zero-padded day.month.year followed by zero-padded 24-hour hour:minute. -/
def specRender (dt : DateTime) : String :=
  pad2 dt.day ++ "." ++ pad2 dt.month ++ "." ++ pad4 dt.year ++ " " ++
    pad2 dt.hour ++ ":" ++ pad2 dt.minute

example : parseDT "Monday January 02,2023 03:04 PM GMT" =
    some ⟨2023, 1, 2, 15, 4⟩ := by decide

example : computeOutput "Monday January 02,2023 03:04 PM GMT" =
    some "02.01.2023 15:04" := by decide

example : computeOutput "Sunday June 11,2023 09:15 AM GMT" =
    some "11.06.2023 09:15" := by decide

example : computeOutput "not-a-date" = none := by decide

/-! ## The metadata table -/

/-- One row of the merged metadata table; only the two columns the program
reads.  A row coming from a CSV file that lacks one of the columns carries
the empty string there (pandas fills NaN; NaN never equals a filename and
never parses as a date, and the empty string behaves the same way in both
places). -/
structure Row where
  imgName : String
  originalCreationDate : String
deriving DecidableEq, Repr

/-- The merged metadata table (`pd.concat` of the loaded CSV files): whether
each of the two columns the program accesses is present at all, and the rows
in concatenation order. -/
structure DataFrame where
  hasImgName : Bool
  hasDate : Bool
  rows : List Row
deriving DecidableEq, Repr

def emptyDF : DataFrame := ⟨false, false, []⟩

/-- `pd.concat`: the column set is the union, rows keep concatenation order. -/
def concatDF (a b : DataFrame) : DataFrame :=
  ⟨a.hasImgName || b.hasImgName, a.hasDate || b.hasDate, a.rows ++ b.rows⟩

/-- Line 97-102 of the source:
`match = df[df["imgName"] == filename]["originalCreationDate"]`, then the
`.empty` test and `.iloc[0]`.  Accessing a missing column raises `KeyError`
(the `imgName` access happens first); otherwise the result is `none` for the
empty selection (the skip case) and the date of the first row whose
`imgName` equals `filename` otherwise. -/
def lookupDate (df : DataFrame) (filename : String) : Except String (Option String) :=
  if !df.hasImgName then .error "KeyError: imgName"
  else if !df.hasDate then .error "KeyError: originalCreationDate"
  else .ok (((df.rows.filter (fun r => r.imgName == filename)).head?).map
      Row.originalCreationDate)

/-! ## Folder, run state, and the per-file loop of `fix_dates` -/

/-- A directory entry: its name, opaque content, and the two timestamp
attributes the program writes (`f.created`, `f.modified`), modelled as the
string values assigned to them. -/
structure FileEntry where
  name : String
  content : String
  created : String
  modified : String
deriving DecidableEq, Repr

/-- `filename.lower().endswith(".csv")`: the last four characters of the
lowercased name are `.csv`. -/
def isCsvName (s : String) : Bool :=
  let l := lowerStr s.data
  l.drop (l.length - 4) == ".csv".data

/-- Setting both timestamp attributes of the file at `n` to `d`
(`f.created = date_str; f.modified = date_str`).  Content and name are
untouched. -/
def setTimes (files : List FileEntry) (n d : String) : List FileEntry :=
  files.map fun f => if f.name == n then { f with created := d, modified := d } else f

/-- Outcome of the body of the `try` block for one non-CSV entry. -/
inductive Outcome where
  | skipped : Outcome
  | wouldSet : String → Outcome
  | set : String → Outcome
  | errored : String → Outcome
deriving DecidableEq, Repr

/-- Lines 96-114: look the filename up, skip when the selection is empty,
parse and render the date, then either preview or apply; any raised error
(missing column, unparseable date) becomes `errored`. -/
def entryOutcome (df : DataFrame) (dryRun : Bool) (filename : String) : Outcome :=
  match lookupDate df filename with
  | .error e => .errored e
  | .ok none => .skipped
  | .ok (some raw) =>
    match parseDT raw with
    | none => .errored ("ValueError: time data " ++ raw ++
        " does not match format " ++ DATE_FORMAT)
    | some dt =>
      if dryRun then .wouldSet (strftimeOut dt) else .set (strftimeOut dt)

/-- State threaded through the loop of `fix_dates`: current folder contents,
the two counters, and the printed lines so far. -/
structure RunState where
  files : List FileEntry
  success : Nat
  errors : Nat
  log : List String
deriving DecidableEq, Repr

def skipLine (f : String) : String := "[SKIP]  No metadata found for: " ++ f
def dryLine (f d : String) : String := "[DRY-RUN] Would set " ++ f ++ " → " ++ d
def okLine (f d : String) : String := "[OK]    Setting " ++ f ++ " → " ++ d
def errLine (f e : String) : String := "[ERROR] " ++ f ++ ": " ++ e
def summaryLine (s e : Nat) : String :=
  "\n--- Done: " ++ toString s ++ " updated, " ++ toString e ++ " errors ---"

/-- One iteration of the loop of `fix_dates` for the listed name `n`:
CSV names are skipped silently; otherwise the outcome updates the log, the
counters, and (for an applied outcome) the folder. -/
def processName (df : DataFrame) (dryRun : Bool) (st : RunState) (n : String) :
    RunState :=
  if isCsvName n then st
  else
    match entryOutcome df dryRun n with
    | .skipped => { st with log := st.log ++ [skipLine n] }
    | .wouldSet d =>
        { st with success := st.success + 1, log := st.log ++ [dryLine n d] }
    | .set d =>
        { st with files := setTimes st.files n d,
                  success := st.success + 1, log := st.log ++ [okLine n d] }
    | .errored e =>
        { st with errors := st.errors + 1, log := st.log ++ [errLine n e] }

/-- Printing the final summary line. -/
def finishRun (st : RunState) : RunState :=
  { st with log := st.log ++ [summaryLine st.success st.errors] }

/-- `fix_dates(folder, df, dry_run)`: fold the loop body over the folder
listing (taken once, before any mutation) and print the final summary. -/
def fix_dates (files : List FileEntry) (df : DataFrame) (dryRun : Bool) :
    RunState :=
  finishRun ((files.map FileEntry.name).foldl (processName df dryRun)
    ⟨files, 0, 0, []⟩)

/-! ## CSV loading and the entry point -/

/-- Split a character list on every occurrence of `c` (the single-character
case of `str.split`). -/
def splitOnChar (c : Char) : List Char → List (List Char)
  | [] => [[]]
  | x :: xs =>
    match splitOnChar c xs with
    | [] => [[]]
    | g :: gs => if x = c then [] :: g :: gs else (x :: g) :: gs

/-- Field list of one CSV line (`,` separated, no quoting in the model). -/
def splitFields (line : List Char) : List String :=
  (splitOnChar ',' line).map fun cs => ⟨cs⟩

/-- Build the modelled `DataFrame` of one parsed CSV: column-presence flags
from the header, and for each data line the two fields the program uses
(missing trailing fields read as the empty string, as pandas reads NaN). -/
def tableOf (cols : List String) (dataLines : List (List String)) : DataFrame :=
  let iName := (cols.findIdx? (fun c => c == "imgName")).getD cols.length
  let iDate := (cols.findIdx? (fun c => c == "originalCreationDate")).getD cols.length
  ⟨cols.contains "imgName", cols.contains "originalCreationDate",
   dataLines.map fun fs => ⟨fs.getD iName "", fs.getD iDate ""⟩⟩

/-- `pd.read_csv` embedded on the file content: blank lines are skipped, the
first line is the header; an empty file raises `EmptyDataError`, a data row
wider than the header raises `ParserError`.  No column-presence validation
happens here. -/
def read_csv (content : String) : Except String DataFrame :=
  match (splitOnChar '\n' content.data).filter (fun l => l ≠ []) with
  | [] => .error "EmptyDataError: No columns to parse from file"
  | header :: dataLines =>
    let cols := splitFields header
    let rows := dataLines.map splitFields
    if rows.all (fun fs => fs.length ≤ cols.length) then
      .ok (tableOf cols rows)
    else .error "ParserError: Error tokenizing data"

/-- Read every CSV file in listing order; the first raised error aborts. -/
def readAll : List FileEntry → Except String (List DataFrame)
  | [] => .ok []
  | f :: rest =>
    match read_csv f.content with
    | .error e => .error e
    | .ok d =>
      match readAll rest with
      | .error e => .error e
      | .ok ds => .ok (d :: ds)

/-- `load_metadata(folder)`: read each `.csv` entry, fail with
`FileNotFoundError` when there is none, else concatenate. -/
def load_metadata (files : List FileEntry) : Except String DataFrame :=
  match readAll (files.filter (fun f => isCsvName f.name)) with
  | .error e => .error e
  | .ok frames =>
    if frames.isEmpty then
      .error "FileNotFoundError: No CSV metadata files found"
    else .ok (frames.foldl concatDF emptyDF)

/-- `main` after argument parsing: `none` models a path that is not a
directory (`NotADirectoryError`); otherwise load the metadata and run
`fix_dates`.  The extension enumeration of the source is informational only
and gates nothing. -/
def runMain (fs : Option (List FileEntry)) (dryRun : Bool) :
    Except String RunState :=
  match fs with
  | none => .error "NotADirectoryError: Folder not found"
  | some files =>
    match load_metadata files with
    | .error e => .error e
    | .ok df => .ok (fix_dates files df dryRun)

example :
    read_csv "imgName,originalCreationDate\nphoto1.jpg,x" =
      .ok ⟨true, true, [⟨"photo1.jpg", "x"⟩]⟩ := by rfl

example : read_csv "" = .error "EmptyDataError: No columns to parse from file" := by
  rfl

/-! ## Derived descriptions of one loop iteration

The run over a listing is characterised through four per-name observations:
the folder transformation, whether the success counter moves, whether the
error counter moves, and the printed line.  `foldl_processName` below proves
that the loop is exactly the pointwise combination of these. -/

/-- Folder transformation of one iteration: only an applied (non-preview)
outcome touches the folder, by setting both timestamps of the named file. -/
def applyName (df : DataFrame) (dryRun : Bool) (fs : List FileEntry)
    (n : String) : List FileEntry :=
  if isCsvName n then fs
  else
    match entryOutcome df dryRun n with
    | .set d => setTimes fs n d
    | _ => fs

/-- Whether the iteration for listed name `n` increments the success counter. -/
def succP (df : DataFrame) (dryRun : Bool) (n : String) : Bool :=
  !isCsvName n &&
    (match entryOutcome df dryRun n with
     | .wouldSet _ => true
     | .set _ => true
     | _ => false)

/-- Whether the iteration for listed name `n` increments the error counter. -/
def errP (df : DataFrame) (dryRun : Bool) (n : String) : Bool :=
  !isCsvName n &&
    (match entryOutcome df dryRun n with
     | .errored _ => true
     | _ => false)

/-- The line printed by the iteration for listed name `n` (CSV names print
nothing). -/
def lineOf (df : DataFrame) (dryRun : Bool) (n : String) : Option String :=
  if isCsvName n then none
  else
    some (match entryOutcome df dryRun n with
      | .skipped => skipLine n
      | .wouldSet d => dryLine n d
      | .set d => okLine n d
      | .errored e => errLine n e)

/-- The loop of `fix_dates` is the pointwise combination of the four
per-name observations: it never aborts, counts one per outcome, logs one
line per non-CSV name in listing order, and only applied outcomes change
the folder. -/
theorem foldl_processName (df : DataFrame) (dry : Bool) (names : List String)
    (st : RunState) :
    names.foldl (processName df dry) st =
      ⟨names.foldl (applyName df dry) st.files,
       st.success + names.countP (succP df dry),
       st.errors + names.countP (errP df dry),
       st.log ++ names.filterMap (lineOf df dry)⟩ := by
  induction names generalizing st with
  | nil => simp
  | cons n ns ih =>
    simp only [List.foldl_cons, ih, List.countP_cons, List.filterMap_cons]
    show _ = RunState.mk _ _ _ _
    unfold processName applyName succP errP lineOf
    by_cases hc : isCsvName n
    · simp [hc]
    · cases h : entryOutcome df dry n <;>
        simp [hc, h, RunState.mk.injEq] <;> omega

/-! ## Inversion facts about the date parser -/

theorem monthNum_bounds {l : List Char} {m : Nat} (h : monthNum l = some m) :
    1 ≤ m ∧ m ≤ 12 := by
  unfold monthNum at h
  obtain ⟨p, hp, hm⟩ := Option.map_eq_some'.mp h
  have hmem := List.mem_of_find?_eq_some hp
  have hall : ∀ q ∈ monthTable, 1 ≤ q.2 ∧ q.2 ≤ 12 := by decide
  subst hm
  exact hall p hmem

theorem to24_le {h12 : Nat} (h1 : 1 ≤ h12) (h2 : h12 ≤ 12) (pm : Bool) :
    to24 h12 pm ≤ 23 := by
  unfold to24
  cases pm <;> simp <;> split <;> omega

/-- Every value the parser returns is a valid instant, inside the pandas
year range. -/
theorem parseDT_valid {s : String} {dt : DateTime} (h : parseDT s = some dt) :
    1 ≤ dt.month ∧ dt.month ≤ 12 ∧ 1 ≤ dt.day ∧
      dt.day ≤ daysInMonth dt.year dt.month ∧ dt.hour ≤ 23 ∧ dt.minute ≤ 59 ∧
      1678 ≤ dt.year ∧ dt.year ≤ 2261 := by
  unfold parseDT at h
  split at h
  · exact Option.noConfusion h
  rename_i wd r1 hsp1
  split at h
  case isFalse => exact Option.noConfusion h
  rename_i hwd
  split at h
  · exact Option.noConfusion h
  rename_i mon r2 hsp2
  split at h
  · exact Option.noConfusion h
  rename_i mi hmi
  split at h
  · exact Option.noConfusion h
  rename_i dstr r3 hsp3
  split at h
  case isFalse => exact Option.noConfusion h
  rename_i hd2
  split at h
  · exact Option.noConfusion h
  rename_i d hpd
  split at h
  · exact Option.noConfusion h
  rename_i ystr r4 hsp4
  split at h
  case isFalse => exact Option.noConfusion h
  rename_i hy4
  split at h
  · exact Option.noConfusion h
  rename_i y hpy
  split at h
  · exact Option.noConfusion h
  rename_i hstr r5 hsp5
  split at h
  case isFalse => exact Option.noConfusion h
  rename_i hh2
  split at h
  · exact Option.noConfusion h
  rename_i h12 hph
  split at h
  · exact Option.noConfusion h
  rename_i mstr r6 hsp6
  split at h
  case isFalse => exact Option.noConfusion h
  rename_i hm2
  split at h
  · exact Option.noConfusion h
  rename_i mn hpmn
  split at h
  · exact Option.noConfusion h
  rename_i ap r7 hsp7
  split at h
  · exact Option.noConfusion h
  rename_i pm hap
  split at h
  case isFalse => exact Option.noConfusion h
  rename_i hcond
  obtain ⟨-, hd1, hdm, hh1, hh12, hmn59, hy1, hy2⟩ := hcond
  cases h
  exact ⟨(monthNum_bounds hmi).1, (monthNum_bounds hmi).2, hd1, hdm,
    to24_le hh1 hh12 pm, hmn59, hy1, hy2⟩

theorem pad4_eq_toString {y : Nat} (hy : 1000 ≤ y) : pad4 y = toString y := by
  unfold pad4
  rw [if_neg (by omega), if_neg (by omega), if_neg (by omega)]

/-- On every value the parser can return, the output-format rendering of the
code is exactly the rendering the spec describes. -/
theorem strftimeOut_eq_specRender {s : String} {dt : DateTime}
    (h : parseDT s = some dt) : strftimeOut dt = specRender dt := by
  have hy := (parseDT_valid h).2.2.2.2.2.2.1
  unfold strftimeOut specRender
  rw [pad4_eq_toString (by omega)]

/-! ## Constructive soundness of the date parser -/

/-- The character of one decimal digit. -/
def digitChar (i : Fin 10) : Char := Char.ofNat (48 + i.val)

/-- The full input text of the fixed format, assembled from a weekday token,
a month token, two day digits, four year digits, two hour digits, two minute
digits, the AM/PM marker and the literal GMT. -/
def mkInputData (wd mon : List Char) (d1 d0 y3 y2 y1 y0 p1 p0 q1 q0 : Fin 10)
    (pm : Bool) : List Char :=
  wd ++ ' ' :: (mon ++ ' ' :: (digitChar d1 :: digitChar d0 :: ',' ::
    (digitChar y3 :: digitChar y2 :: digitChar y1 :: digitChar y0 :: ' ' ::
      (digitChar p1 :: digitChar p0 :: ':' ::
        (digitChar q1 :: digitChar q0 :: ' ' ::
          ((if pm then ['P', 'M'] else ['A', 'M']) ++ ' ' :: ['G', 'M', 'T']))))))

theorem splitAtChar_append {c : Char} {pre : List Char} (post : List Char)
    (h : c ∉ pre) : splitAtChar c (pre ++ c :: post) = some (pre, post) := by
  induction pre with
  | nil => simp [splitAtChar]
  | cons x xs ih =>
    have hx : x ≠ c := fun hxc => h (hxc ▸ List.mem_cons_self x xs)
    have hxs : c ∉ xs := fun hm => h (List.mem_cons_of_mem x hm)
    rw [List.cons_append]
    unfold splitAtChar
    rw [if_neg hx, ih hxs]

theorem splitAtChar_cons_ne {c x : Char} (xs : List Char) (h : x ≠ c) :
    splitAtChar c (x :: xs) =
      (match splitAtChar c xs with
        | some (pre, post) => some (x :: pre, post)
        | none => none) := by
  conv_lhs => unfold splitAtChar
  rw [if_neg h]

theorem splitAtChar_cons_eq {c : Char} (xs : List Char) :
    splitAtChar c (c :: xs) = some ([], xs) := by
  conv_lhs => unfold splitAtChar
  rw [if_pos rfl]

theorem digitChar_toNat : ∀ i : Fin 10, (digitChar i).toNat = 48 + i.val := by
  decide

theorem digitChar_isDigit : ∀ i : Fin 10, (digitChar i).isDigit = true := by
  decide

theorem digitChar_ne_space : ∀ i : Fin 10, digitChar i ≠ ' ' := by decide

theorem digitChar_ne_comma : ∀ i : Fin 10, digitChar i ≠ ',' := by decide

theorem digitChar_ne_colon : ∀ i : Fin 10, digitChar i ≠ ':' := by decide

theorem parseDigits_two (a b : Fin 10) :
    parseDigits [digitChar a, digitChar b] = some (10 * a.val + b.val) := by
  unfold parseDigits
  rw [if_pos ⟨by simp, by simp [digitChar_isDigit]⟩]
  simp [digitChar_toNat]
  omega

theorem parseDigits_four (a b c d : Fin 10) :
    parseDigits [digitChar a, digitChar b, digitChar c, digitChar d] =
      some (1000 * a.val + 100 * b.val + 10 * c.val + d.val) := by
  unfold parseDigits
  rw [if_pos ⟨by simp, by simp [digitChar_isDigit]⟩]
  simp [digitChar_toNat]
  omega

/-- Soundness of the embedded matcher on every well-formed input: any
accepted weekday token, any month token, any in-range day, four-digit year,
12-hour time and AM/PM marker parse to exactly the denoted instant, with
the 24-hour conversion applied. -/
theorem parseDT_sound (wd mon : List Char) (mi : Nat)
    (d1 d0 y3 y2 y1 y0 p1 p0 q1 q0 : Fin 10) (pm : Bool)
    (d y h12 mn : Nat)
    (hwd : isWeekdayName wd = true) (hwds : ' ' ∉ wd)
    (hmon : monthIndex mon = some mi) (hmons : ' ' ∉ mon)
    (hd : d = 10 * d1.val + d0.val)
    (hy : y = 1000 * y3.val + 100 * y2.val + 10 * y1.val + y0.val)
    (hh : h12 = 10 * p1.val + p0.val)
    (hmn : mn = 10 * q1.val + q0.val)
    (hdge : 1 ≤ d) (hdm : d ≤ daysInMonth y mi)
    (hhge : 1 ≤ h12) (hh12 : h12 ≤ 12) (hmn59 : mn ≤ 59)
    (hy1 : 1678 ≤ y) (hy2 : y ≤ 2261) :
    parseDT ⟨mkInputData wd mon d1 d0 y3 y2 y1 y0 p1 p0 q1 q0 pm⟩ =
      some ⟨y, mi, d, to24 h12 pm, mn⟩ := by
  unfold parseDT mkInputData
  rw [splitAtChar_append _ hwds]
  dsimp only
  rw [if_pos hwd]
  rw [splitAtChar_append _ hmons]
  dsimp only
  rw [hmon]
  dsimp only
  rw [splitAtChar_cons_ne _ (digitChar_ne_comma d1),
    splitAtChar_cons_ne _ (digitChar_ne_comma d0), splitAtChar_cons_eq]
  dsimp only
  rw [if_pos (by simp)]
  rw [parseDigits_two d1 d0]
  dsimp only
  rw [splitAtChar_cons_ne _ (digitChar_ne_space y3),
    splitAtChar_cons_ne _ (digitChar_ne_space y2),
    splitAtChar_cons_ne _ (digitChar_ne_space y1),
    splitAtChar_cons_ne _ (digitChar_ne_space y0), splitAtChar_cons_eq]
  dsimp only
  rw [if_pos (by simp)]
  rw [parseDigits_four y3 y2 y1 y0]
  dsimp only
  rw [splitAtChar_cons_ne _ (digitChar_ne_colon p1),
    splitAtChar_cons_ne _ (digitChar_ne_colon p0), splitAtChar_cons_eq]
  dsimp only
  rw [if_pos (by simp)]
  rw [parseDigits_two p1 p0]
  dsimp only
  rw [splitAtChar_cons_ne _ (digitChar_ne_space q1),
    splitAtChar_cons_ne _ (digitChar_ne_space q0), splitAtChar_cons_eq]
  dsimp only
  rw [if_pos (by simp)]
  rw [parseDigits_two q1 q0]
  dsimp only
  rw [splitAtChar_append _ (by cases pm <;> decide)]
  dsimp only
  rw [show parseAmPm (if pm then ['P', 'M'] else ['A', 'M']) = some pm by
    cases pm <;> decide]
  dsimp only
  rw [← hd, ← hy, ← hh, ← hmn]
  rw [if_pos ⟨by decide, hdge, hdm, hhge, hh12, hmn59, hy1, hy2⟩]

/-! ## Claim theorems -/

/-- C1: parsing the input date string `Monday January 02,2023 03:04 PM GMT`
with the fixed input format and reformatting with the fixed output format
yields exactly `02.01.2023 15:04`; for every date value the input format
parses, the computed output is the spec-described rendering — zero-padded
day.month.year followed by zero-padded 24-hour hour:minute — of the parsed
instant, whose fields form a valid calendar date and 24-hour time of day;
and every well-formed input (weekday name, month name, in-range day, comma,
four-digit year, 12-hour time, AM/PM, literal GMT) is parsed to exactly the
instant its components denote and rendered from it. -/
theorem C1_fixed_format_round_trip :
    computeOutput "Monday January 02,2023 03:04 PM GMT" =
      some "02.01.2023 15:04" ∧
    (∀ s dt, parseDT s = some dt →
      computeOutput s = some (specRender dt) ∧
      1 ≤ dt.month ∧ dt.month ≤ 12 ∧ 1 ≤ dt.day ∧
        dt.day ≤ daysInMonth dt.year dt.month ∧ dt.hour ≤ 23 ∧
        dt.minute ≤ 59) ∧
    (∀ (wd mon : List Char) (mi : Nat)
      (d1 d0 y3 y2 y1 y0 p1 p0 q1 q0 : Fin 10) (pm : Bool)
      (d y h12 mn : Nat),
      isWeekdayName wd = true → ' ' ∉ wd →
      monthIndex mon = some mi → ' ' ∉ mon →
      d = 10 * d1.val + d0.val →
      y = 1000 * y3.val + 100 * y2.val + 10 * y1.val + y0.val →
      h12 = 10 * p1.val + p0.val →
      mn = 10 * q1.val + q0.val →
      1 ≤ d → d ≤ daysInMonth y mi → 1 ≤ h12 → h12 ≤ 12 → mn ≤ 59 →
      1678 ≤ y → y ≤ 2261 →
      parseDT ⟨mkInputData wd mon d1 d0 y3 y2 y1 y0 p1 p0 q1 q0 pm⟩ =
        some ⟨y, mi, d, to24 h12 pm, mn⟩ ∧
      computeOutput ⟨mkInputData wd mon d1 d0 y3 y2 y1 y0 p1 p0 q1 q0 pm⟩ =
        some (specRender ⟨y, mi, d, to24 h12 pm, mn⟩)) := by
  refine ⟨by decide, fun s dt h => ?_, ?_⟩
  · have hv := parseDT_valid h
    refine ⟨?_, hv.1, hv.2.1, hv.2.2.1, hv.2.2.2.1, hv.2.2.2.2.1,
      hv.2.2.2.2.2.1⟩
    rw [computeOutput, h, Option.map_some', strftimeOut_eq_specRender h]
  · intro wd mon mi d1 d0 y3 y2 y1 y0 p1 p0 q1 q0 pm d y h12 mn hwd hwds
      hmon hmons hd hy hh hmn hdge hdm hhge hh12 hmn59 hy1 hy2
    have hp := parseDT_sound wd mon mi d1 d0 y3 y2 y1 y0 p1 p0 q1 q0 pm
      d y h12 mn hwd hwds hmon hmons hd hy hh hmn hdge hdm hhge hh12 hmn59
      hy1 hy2
    refine ⟨hp, ?_⟩
    rw [computeOutput, hp, Option.map_some', strftimeOut_eq_specRender hp]

/-- Witness for C1: the general statements applied to concrete inputs, among
them `Sunday June 11,2023 09:15 AM GMT` and the assembled text
`Monday January 02,2023 03:04 PM GMT`. -/
theorem C1_fixed_format_round_trip_witness :
    computeOutput "Sunday June 11,2023 09:15 AM GMT" =
      some (specRender ⟨2023, 6, 11, 9, 15⟩) ∧
    parseDT ⟨mkInputData "Monday".data "January".data 0 2 2 0 2 3 0 3 0 4
        true⟩ = some ⟨2023, 1, 2, to24 3 true, 4⟩ :=
  ⟨(C1_fixed_format_round_trip.2.1 "Sunday June 11,2023 09:15 AM GMT"
      ⟨2023, 6, 11, 9, 15⟩ (by decide)).1,
   (C1_fixed_format_round_trip.2.2 "Monday".data "January".data 1
      0 2 2 0 2 3 0 3 0 4 true 2 2023 3 4
      (by decide) (by decide) (by decide) (by decide) (by decide) (by decide)
      (by decide) (by decide) (by decide) (by decide) (by decide) (by decide)
      (by decide) (by decide) (by decide)).1⟩

/-- In preview mode the outcome of an entry is never an applied `set`. -/
theorem entryOutcome_true_ne_set (df : DataFrame) (n d : String) :
    entryOutcome df true n ≠ .set d := by
  unfold entryOutcome
  cases hl : lookupDate df n with
  | error e => simp
  | ok o =>
    cases o with
    | none => simp
    | some raw => cases hp : parseDT raw <;> simp [hp]

/-- The previewed string and the applied string agree outcome by outcome. -/
theorem entryOutcome_wouldSet_iff_set (df : DataFrame) (n d : String) :
    entryOutcome df true n = .wouldSet d ↔
      entryOutcome df false n = .set d := by
  unfold entryOutcome
  cases hl : lookupDate df n with
  | error e => simp
  | ok o =>
    cases o with
    | none => simp
    | some raw => cases hp : parseDT raw <;> simp [hp]

/-- A preview iteration never changes the folder. -/
theorem applyName_true (df : DataFrame) (fs : List FileEntry) (n : String) :
    applyName df true fs n = fs := by
  unfold applyName
  by_cases hc : isCsvName n = true
  · simp [hc]
  · simp only [hc, if_false, Bool.false_eq_true]
    split
    next d heq => exact absurd heq (entryOutcome_true_ne_set df n d)
    next => rfl

theorem foldl_applyName_true (df : DataFrame) (names : List String)
    (fs : List FileEntry) : names.foldl (applyName df true) fs = fs := by
  induction names generalizing fs with
  | nil => rfl
  | cons n ns ih => rw [List.foldl_cons, applyName_true, ih]

/-- The run in one equation: final folder, counters as `countP` over the
listing, and the log as one line per non-CSV name followed by the summary. -/
theorem fix_dates_spec (files : List FileEntry) (df : DataFrame) (dry : Bool) :
    fix_dates files df dry =
      ⟨(files.map FileEntry.name).foldl (applyName df dry) files,
       (files.map FileEntry.name).countP (succP df dry),
       (files.map FileEntry.name).countP (errP df dry),
       (files.map FileEntry.name).filterMap (lineOf df dry) ++
         [summaryLine ((files.map FileEntry.name).countP (succP df dry))
           ((files.map FileEntry.name).countP (errP df dry))]⟩ := by
  unfold fix_dates finishRun
  rw [foldl_processName]
  simp

/-- C2: on every folder and metadata table, the preview run leaves every
file of the folder unchanged, and an entry previews exactly a string `d`
precisely when the non-preview run applies exactly that string `d` to it. -/
theorem C2_preview_reports_what_apply_does :
    ∀ (files : List FileEntry) (df : DataFrame),
      (fix_dates files df true).files = files ∧
      ∀ n d, entryOutcome df true n = .wouldSet d ↔
        entryOutcome df false n = .set d := by
  intro files df
  refine ⟨?_, fun n d => entryOutcome_wouldSet_iff_set df n d⟩
  rw [fix_dates_spec, foldl_applyName_true]

/-- C3: on every run, the error counter counts exactly the non-CSV entries
whose processing raises, each such entry is logged with its own filename and
error text, and no error aborts the loop: the log holds one line per
non-CSV listed name, in listing order, closed by the final summary line. -/
theorem C3_per_entry_errors_are_isolated :
    ∀ (files : List FileEntry) (df : DataFrame) (dry : Bool),
      (fix_dates files df dry).log =
        (files.map FileEntry.name).filterMap (lineOf df dry) ++
          [summaryLine (fix_dates files df dry).success
            (fix_dates files df dry).errors] ∧
      (fix_dates files df dry).errors =
        (files.map FileEntry.name).countP (errP df dry) ∧
      ∀ n e, isCsvName n = false → entryOutcome df dry n = .errored e →
        lineOf df dry n = some (errLine n e) ∧ errP df dry n = true := by
  intro files df dry
  rw [fix_dates_spec]
  refine ⟨rfl, rfl, fun n e hc he => ?_⟩
  unfold lineOf errP
  rw [hc, he]
  simp

/-- Witness for C3: a malformed date for `photo2.jpg` is logged as an error
attributed to `photo2.jpg` and counted. -/
theorem C3_per_entry_errors_are_isolated_witness :
    lineOf ⟨true, true, [⟨"photo2.jpg", "11/06/2023"⟩]⟩ false "photo2.jpg" =
      some (errLine "photo2.jpg"
        ("ValueError: time data 11/06/2023 does not match format " ++
          DATE_FORMAT)) ∧
    errP ⟨true, true, [⟨"photo2.jpg", "11/06/2023"⟩]⟩ false "photo2.jpg" =
      true :=
  (C3_per_entry_errors_are_isolated []
      ⟨true, true, [⟨"photo2.jpg", "11/06/2023"⟩]⟩ false).2.2
    "photo2.jpg"
    ("ValueError: time data 11/06/2023 does not match format " ++ DATE_FORMAT)
    (by decide) (by decide)

/-- C4: a non-CSV entry whose filename matches no row of a table that has
both columns is skipped: the outcome is `skipped`, the printed line is the
skip report, neither counter moves for it, and the folder is untouched by
its iteration. -/
theorem C4_no_match_is_a_skip :
    ∀ (df : DataFrame) (dry : Bool) (n : String),
      isCsvName n = false →
      df.hasImgName = true → df.hasDate = true →
      (∀ r ∈ df.rows, ¬ r.imgName = n) →
      entryOutcome df dry n = .skipped ∧
      lineOf df dry n = some (skipLine n) ∧
      succP df dry n = false ∧ errP df dry n = false ∧
      ∀ fs, applyName df dry fs n = fs := by
  intro df dry n hc h1 h2 hno
  have hfil : df.rows.filter (fun r => r.imgName == n) = [] := by
    rw [List.filter_eq_nil_iff]
    intro r hr
    simpa using hno r hr
  have hlk : lookupDate df n = .ok none := by
    unfold lookupDate
    rw [h1, h2, hfil]
    rfl
  have ho : entryOutcome df dry n = .skipped := by
    unfold entryOutcome
    rw [hlk]
  refine ⟨ho, ?_, ?_, ?_, fun fs => ?_⟩
  · unfold lineOf
    simp [hc, ho]
  · unfold succP
    simp [hc, ho]
  · unfold errP
    simp [hc, ho]
  · unfold applyName
    simp [hc, ho]

/-- Witness for C4: a folder entry `photo1.jpg` absent from the table is
skipped with no counter movement. -/
theorem C4_no_match_is_a_skip_witness :
    entryOutcome ⟨true, true, [⟨"other.jpg", "x"⟩]⟩ false "photo1.jpg" =
        .skipped ∧
      lineOf ⟨true, true, [⟨"other.jpg", "x"⟩]⟩ false "photo1.jpg" =
        some (skipLine "photo1.jpg") ∧
      succP ⟨true, true, [⟨"other.jpg", "x"⟩]⟩ false "photo1.jpg" = false ∧
      errP ⟨true, true, [⟨"other.jpg", "x"⟩]⟩ false "photo1.jpg" = false ∧
      ∀ fs, applyName ⟨true, true, [⟨"other.jpg", "x"⟩]⟩ false fs
        "photo1.jpg" = fs :=
  C4_no_match_is_a_skip ⟨true, true, [⟨"other.jpg", "x"⟩]⟩ false "photo1.jpg"
    (by decide) rfl rfl (by decide)

/-- C5: lookup over a table with both columns returns the
`originalCreationDate` of the first row (in concatenation order) whose
`imgName` is literally equal to the filename: it is `List.find?` with the
exact string equality test, `find?` distributes over concatenation
first-table-first, mere case difference does not match, and of two rows for
one name the first wins. -/
theorem C5_exact_match_first_row_wins :
    (∀ (df : DataFrame) (n : String),
      df.hasImgName = true → df.hasDate = true →
      lookupDate df n =
        .ok ((df.rows.find? (fun r => r.imgName == n)).map
          Row.originalCreationDate)) ∧
    (∀ (a b : DataFrame) (n : String),
      (concatDF a b).rows.find? (fun r => r.imgName == n) =
        ((a.rows.find? (fun r => r.imgName == n)).or
          (b.rows.find? (fun r => r.imgName == n)))) ∧
    lookupDate ⟨true, true, [⟨"Photo1.JPG", "d1"⟩]⟩ "photo1.jpg" = .ok none ∧
    lookupDate ⟨true, true, [⟨"a.jpg", "d1"⟩, ⟨"a.jpg", "d2"⟩]⟩ "a.jpg" =
      .ok (some "d1") := by
  refine ⟨fun df n h1 h2 => ?_, fun a b n => ?_, rfl, rfl⟩
  · unfold lookupDate
    rw [h1, h2, List.filter_head?]
    rfl
  · unfold concatDF
    exact List.find?_append

/-- Witness for C5: the general lookup description applied to a concrete
one-row table. -/
theorem C5_exact_match_first_row_wins_witness :
    lookupDate ⟨true, true, [⟨"x.jpg", "D"⟩]⟩ "x.jpg" =
      .ok ((([⟨"x.jpg", "D"⟩] : List Row).find?
        (fun r => r.imgName == "x.jpg")).map Row.originalCreationDate) :=
  C5_exact_match_first_row_wins.1 ⟨true, true, [⟨"x.jpg", "D"⟩]⟩ "x.jpg"
    rfl rfl

/-! ## Start-up behaviour: when the whole run aborts -/

theorem readAll_ok_of (l : List FileEntry)
    (h : ∀ f ∈ l, ∃ d, read_csv f.content = .ok d) :
    ∃ ds, readAll l = .ok ds ∧ ds.length = l.length := by
  induction l with
  | nil => exact ⟨[], rfl, rfl⟩
  | cons f r ih =>
    obtain ⟨d, hd⟩ := h f (by simp)
    obtain ⟨ds, hds, hlen⟩ := ih fun g hg => h g (by simp [hg])
    refine ⟨d :: ds, ?_, by simp [hlen]⟩
    unfold readAll
    rw [hd, hds]

theorem readAll_ok_forall (l : List FileEntry) (ds : List DataFrame)
    (h : readAll l = .ok ds) :
    (∀ f ∈ l, ∃ d, read_csv f.content = .ok d) ∧ ds.length = l.length := by
  induction l generalizing ds with
  | nil =>
    unfold readAll at h
    cases h
    simp
  | cons f r ih =>
    unfold readAll at h
    cases hr : read_csv f.content with
    | error e =>
      rw [hr] at h
      exact absurd h (by simp)
    | ok d =>
      rw [hr] at h
      cases hra : readAll r with
      | error e =>
        rw [hra] at h
        exact absurd h (by simp)
      | ok ds2 =>
        rw [hra] at h
        cases h
        obtain ⟨hall, hlen⟩ := ih ds2 hra
        refine ⟨fun g hg => ?_, by simp [hlen]⟩
        rcases List.mem_cons.mp hg with hgf | hgr
        · exact hgf ▸ ⟨d, hr⟩
        · exact hall g hgr

/-- Loading succeeds exactly when some CSV file is present and every CSV
file in the folder reads without raising. -/
theorem load_metadata_ok_iff (files : List FileEntry) :
    (∃ df, load_metadata files = .ok df) ↔
      (files.filter (fun f => isCsvName f.name) ≠ [] ∧
       ∀ f ∈ files.filter (fun f => isCsvName f.name),
         ∃ d, read_csv f.content = .ok d) := by
  constructor
  · rintro ⟨df, hdf⟩
    unfold load_metadata at hdf
    cases hra : readAll (files.filter (fun f => isCsvName f.name)) with
    | error e =>
      rw [hra] at hdf
      exact absurd hdf (by simp)
    | ok frames =>
      rw [hra] at hdf
      dsimp only at hdf
      obtain ⟨hall, hlen⟩ := readAll_ok_forall _ _ hra
      refine ⟨fun hnil => ?_, hall⟩
      rw [hnil] at hlen
      rw [if_pos (by simpa [List.isEmpty_iff, List.length_eq_zero] using hlen)]
        at hdf
      exact absurd hdf (by simp)
  · rintro ⟨hne, hall⟩
    obtain ⟨ds, hds, hlen⟩ := readAll_ok_of _ hall
    have hdsne : ds ≠ [] := by
      intro h0
      apply hne
      rw [h0] at hlen
      exact List.length_eq_zero.mp hlen.symm
    refine ⟨ds.foldl concatDF emptyDF, ?_⟩
    unfold load_metadata
    rw [hds]
    dsimp only
    rw [if_neg (by simpa [List.isEmpty_iff] using hdsne)]

/-- With no CSV file in the folder, loading fails with the no-metadata
error. -/
theorem load_metadata_no_csv (files : List FileEntry)
    (h : files.filter (fun f => isCsvName f.name) = []) :
    load_metadata files =
      .error "FileNotFoundError: No CSV metadata files found" := by
  unfold load_metadata
  rw [h]
  rfl

/-- Counterexample to C6 as stated: a folder that is a directory and holds
one CSV file can still abort before any file is processed — an empty CSV
makes `pd.read_csv` raise `EmptyDataError`, which propagates out of
`load_metadata`.  So "path is not a directory" and "zero CSV files" are not
the only abort conditions. -/
theorem C6_counterexample_empty_csv_aborts :
    ((([⟨"meta.csv", "", "t0", "t0"⟩] : List FileEntry).filter
        (fun f => isCsvName f.name)).length = 1) ∧
    runMain (some [⟨"meta.csv", "", "t0", "t0"⟩]) false =
      .error "EmptyDataError: No columns to parse from file" :=
  ⟨by decide, rfl⟩

/-- C6 amended: the run aborts before processing any file exactly when the
path is not a directory, no CSV file is found (then with the no-metadata
error), or reading one of the CSV files raises; no further condition
aborts it. -/
theorem C6_abort_conditions_amended :
    (∀ dry, runMain none dry = .error "NotADirectoryError: Folder not found") ∧
    (∀ files dry, files.filter (fun f => isCsvName f.name) = [] →
      runMain (some files) dry =
        .error "FileNotFoundError: No CSV metadata files found") ∧
    (∀ files dry, (∃ st, runMain (some files) dry = .ok st) ↔
      (files.filter (fun f => isCsvName f.name) ≠ [] ∧
       ∀ f ∈ files.filter (fun f => isCsvName f.name),
         ∃ d, read_csv f.content = .ok d)) := by
  refine ⟨fun dry => rfl, fun files dry h => ?_, fun files dry => ?_⟩
  · unfold runMain
    dsimp only
    rw [load_metadata_no_csv files h]
  · constructor
    · rintro ⟨st, hst⟩
      unfold runMain at hst
      dsimp only at hst
      cases hld : load_metadata files with
      | error e =>
        rw [hld] at hst
        exact absurd hst (by simp)
      | ok df => exact (load_metadata_ok_iff files).mp ⟨df, hld⟩
    · intro hyp
      obtain ⟨df, hdf⟩ := (load_metadata_ok_iff files).mpr hyp
      refine ⟨fix_dates files df dry, ?_⟩
      unfold runMain
      dsimp only
      rw [hdf]

/-- Witness for the amended C6: the empty folder aborts with the
no-metadata error. -/
theorem C6_abort_conditions_amended_witness :
    runMain (some ([] : List FileEntry)) false =
      .error "FileNotFoundError: No CSV metadata files found" :=
  C6_abort_conditions_amended.2.1 [] false rfl

/-- C7: for a matched entry with a parseable date, the non-preview outcome
applies exactly the rendered string; the loop iteration then overwrites both
timestamp attributes of the named file with that one string and counts one
success; every file of the folder whose name is the processed name carries
that identical value in `created` and in `modified`; and the concrete
scenario of the spec (folder `photo1.jpg` + `photo1.csv`, row
`Sunday June 11,2023 09:15 AM GMT`) ends with both timestamps
`11.06.2023 09:15`, one success and zero errors. -/
theorem C7_apply_sets_both_timestamps :
    (∀ (df : DataFrame) (n raw : String) (dt : DateTime),
      lookupDate df n = .ok (some raw) → parseDT raw = some dt →
      entryOutcome df false n = .set (strftimeOut dt)) ∧
    (∀ (df : DataFrame) (st : RunState) (n d : String),
      isCsvName n = false → entryOutcome df false n = .set d →
      processName df false st n =
        ⟨setTimes st.files n d, st.success + 1, st.errors,
         st.log ++ [okLine n d]⟩) ∧
    (∀ (fs : List FileEntry) (n d : String) (f : FileEntry),
      f ∈ setTimes fs n d → f.name = n →
      f.created = d ∧ f.modified = d) ∧
    fix_dates
        [⟨"photo1.jpg", "IMG", "t0", "t0"⟩,
         ⟨"photo1.csv", "imgName,originalCreationDate", "t0", "t0"⟩]
        ⟨true, true, [⟨"photo1.jpg", "Sunday June 11,2023 09:15 AM GMT"⟩]⟩
        false =
      ⟨[⟨"photo1.jpg", "IMG", "11.06.2023 09:15", "11.06.2023 09:15"⟩,
        ⟨"photo1.csv", "imgName,originalCreationDate", "t0", "t0"⟩], 1, 0,
       [okLine "photo1.jpg" "11.06.2023 09:15", summaryLine 1 0]⟩ := by
  refine ⟨fun df n raw dt hlk hp => ?_, fun df st n d hc ho => ?_,
    fun fs n d f hf hname => ?_, by decide⟩
  · unfold entryOutcome
    rw [hlk]
    dsimp only
    rw [hp]
    simp
  · unfold processName
    rw [hc]
    simp only [Bool.false_eq_true, if_false]
    rw [ho]
  · obtain ⟨g, hg, hfg⟩ := List.mem_map.mp hf
    by_cases hgn : g.name = n
    · rw [if_pos (by simpa using hgn)] at hfg
      rw [← hfg]
      exact ⟨rfl, rfl⟩
    · rw [if_neg (by simpa using hgn)] at hfg
      rw [← hfg] at hname
      exact absurd hname hgn

/-- Witness for C7: the per-entry statements applied to concrete inputs. -/
theorem C7_apply_sets_both_timestamps_witness :
    entryOutcome ⟨true, true, [⟨"a.jpg", "Monday January 02,2023 03:04 PM GMT"⟩]⟩
        false "a.jpg" = .set (strftimeOut ⟨2023, 1, 2, 15, 4⟩) ∧
    processName ⟨true, true, [⟨"a.jpg", "Monday January 02,2023 03:04 PM GMT"⟩]⟩
        false ⟨[], 0, 0, []⟩ "a.jpg" =
      ⟨setTimes [] "a.jpg" "02.01.2023 15:04", 1, 0,
       [okLine "a.jpg" "02.01.2023 15:04"]⟩ ∧
    (⟨"b.jpg", "c", "02.01.2023 15:04", "02.01.2023 15:04"⟩ : FileEntry).created
        = "02.01.2023 15:04" ∧
    (⟨"b.jpg", "c", "02.01.2023 15:04", "02.01.2023 15:04"⟩ : FileEntry).modified
        = "02.01.2023 15:04" :=
  ⟨C7_apply_sets_both_timestamps.1
      ⟨true, true, [⟨"a.jpg", "Monday January 02,2023 03:04 PM GMT"⟩]⟩
      "a.jpg" "Monday January 02,2023 03:04 PM GMT" ⟨2023, 1, 2, 15, 4⟩
      rfl (by decide),
   C7_apply_sets_both_timestamps.2.1
      ⟨true, true, [⟨"a.jpg", "Monday January 02,2023 03:04 PM GMT"⟩]⟩
      ⟨[], 0, 0, []⟩ "a.jpg" "02.01.2023 15:04" (by decide) (by decide),
   (C7_apply_sets_both_timestamps.2.2.1
      [⟨"b.jpg", "c", "t0", "t0"⟩] "b.jpg" "02.01.2023 15:04"
      ⟨"b.jpg", "c", "02.01.2023 15:04", "02.01.2023 15:04"⟩
      (by decide) rfl).1,
   (C7_apply_sets_both_timestamps.2.2.1
      [⟨"b.jpg", "c", "t0", "t0"⟩] "b.jpg" "02.01.2023 15:04"
      ⟨"b.jpg", "c", "02.01.2023 15:04", "02.01.2023 15:04"⟩
      (by decide) rfl).2⟩

/-! ## The frame of the run: what a file may become -/

/-- Relation between a file of the initial folder and the file at the same
position afterwards: its name and content are preserved, an entry named
`*.csv` is fully untouched, and any change at all is exactly an overwrite of
the two timestamp attributes with the one string of an applied (`set`)
outcome for its name. -/
def frameOK (df : DataFrame) (dry : Bool) (orig now : FileEntry) : Prop :=
  now.name = orig.name ∧ now.content = orig.content ∧
  (isCsvName orig.name = true → now = orig) ∧
  (now ≠ orig → ∃ d, isCsvName orig.name = false ∧
    entryOutcome df dry orig.name = .set d ∧
    now = ⟨orig.name, orig.content, d, d⟩)

theorem frameOK_refl (df : DataFrame) (dry : Bool) (o : FileEntry) :
    frameOK df dry o o :=
  ⟨rfl, rfl, fun _ => rfl, fun h => absurd rfl h⟩

theorem frameOK_setTimes (df : DataFrame) (dry : Bool) {o f : FileEntry}
    (h : frameOK df dry o f) {n d : String}
    (hn : isCsvName n = false) (ho : entryOutcome df dry n = .set d) :
    frameOK df dry o
      (if f.name == n then { f with created := d, modified := d } else f) := by
  obtain ⟨h1, h2, h3, h4⟩ := h
  by_cases hfn : f.name = n
  · rw [if_pos (by simpa using hfn)]
    have honame : o.name = n := h1.symm.trans hfn
    refine ⟨h1, h2, fun hcsv => ?_, fun _ => ⟨d, ?_, ?_, ?_⟩⟩
    · rw [honame, hn] at hcsv
      exact Bool.noConfusion hcsv
    · rw [honame]
      exact hn
    · rw [honame]
      exact ho
    · show (⟨f.name, f.content, d, d⟩ : FileEntry) = _
      rw [h1, h2]
  · rw [if_neg (by simpa using hfn)]
    exact ⟨h1, h2, h3, h4⟩

theorem forall₂_frameOK_run (df : DataFrame) (dry : Bool)
    (names : List String) {fs₀ fs : List FileEntry}
    (h : List.Forall₂ (frameOK df dry) fs₀ fs) :
    List.Forall₂ (frameOK df dry) fs₀ (names.foldl (applyName df dry) fs) := by
  induction names generalizing fs with
  | nil => exact h
  | cons n ns ih =>
    rw [List.foldl_cons]
    apply ih
    unfold applyName
    cases hc : isCsvName n with
    | true => simpa [hc] using h
    | false =>
      simp only [hc, Bool.false_eq_true, if_false]
      cases ho : entryOutcome df dry n with
      | set d =>
        unfold setTimes
        rw [List.forall₂_map_right_iff]
        exact h.imp fun a b hab => frameOK_setTimes df dry hab hc ho
      | skipped => exact h
      | wouldSet d => exact h
      | errored e => exact h

/-- C8: on every run, each file of the final folder stands in `frameOK` to
the file at its position in the initial folder — name and content are never
modified, `*.csv` entries (any letter case) are bit-for-bit untouched, and
the only possible change is the overwrite of the two timestamp attributes
by the applied outcome of that non-CSV name; moreover a CSV-named listing
entry is dropped before lookup: its iteration is the identity on the whole
run state. -/
theorem C8_contents_and_csv_untouched :
    ∀ (files : List FileEntry) (df : DataFrame) (dry : Bool),
      List.Forall₂ (frameOK df dry) files (fix_dates files df dry).files ∧
      ∀ st n, isCsvName n = true → processName df dry st n = st := by
  intro files df dry
  constructor
  · rw [fix_dates_spec]
    exact forall₂_frameOK_run df dry _
      (List.forall₂_same.mpr fun o _ => frameOK_refl df dry o)
  · intro st n hc
    unfold processName
    simp [hc]

/-- Witness for C8: a CSV-named entry (in mixed case) leaves the run state
exactly as it was. -/
theorem C8_contents_and_csv_untouched_witness :
    processName ⟨true, true, [⟨"a.CSV", "x"⟩]⟩ false
      ⟨[⟨"p.jpg", "c", "t0", "t0"⟩], 3, 4, ["l"]⟩ "a.CSV" =
      ⟨[⟨"p.jpg", "c", "t0", "t0"⟩], 3, 4, ["l"]⟩ :=
  (C8_contents_and_csv_untouched [⟨"p.jpg", "c", "t0", "t0"⟩]
      ⟨true, true, [⟨"a.CSV", "x"⟩]⟩ false).2
    ⟨[⟨"p.jpg", "c", "t0", "t0"⟩], 3, 4, ["l"]⟩ "a.CSV" (by decide)

/-- Accessing a table that lacks one of the two used columns raises a
`KeyError` for every filename. -/
theorem lookupDate_missing_col (df : DataFrame) (n : String)
    (h : df.hasImgName = false ∨ df.hasDate = false) :
    ∃ e, lookupDate df n = .error e := by
  unfold lookupDate
  rcases h with h | h
  · exact ⟨"KeyError: imgName", by simp [h]⟩
  · cases h1 : df.hasImgName with
    | false => exact ⟨"KeyError: imgName", by simp [h1]⟩
    | true => exact ⟨"KeyError: originalCreationDate", by simp [h1, h]⟩

/-- C9: loading performs no column validation — a CSV without `imgName` or
`originalCreationDate` loads successfully with both presence flags off —
and the missing column surfaces only per entry at match time: every non-CSV
entry gets a caught `errored` outcome logged under its own name, the error
counter then counts exactly the non-CSV entries, the success counter is
zero, and the run still ends with the summary line. -/
theorem C9_missing_column_surfaces_at_match_time :
    read_csv "foo,bar\n1,2" = .ok ⟨false, false, [⟨"", ""⟩]⟩ ∧
    load_metadata [⟨"m.csv", "foo,bar\n1,2", "t0", "t0"⟩] =
      .ok ⟨false, false, [⟨"", ""⟩]⟩ ∧
    (∀ (df : DataFrame) (dry : Bool) (n : String),
      (df.hasImgName = false ∨ df.hasDate = false) → isCsvName n = false →
      ∃ e, entryOutcome df dry n = .errored e ∧
        lineOf df dry n = some (errLine n e) ∧ errP df dry n = true) ∧
    (∀ (files : List FileEntry) (df : DataFrame) (dry : Bool),
      (df.hasImgName = false ∨ df.hasDate = false) →
      (fix_dates files df dry).errors =
        (files.map FileEntry.name).countP (fun n => !isCsvName n) ∧
      (fix_dates files df dry).success = 0 ∧
      (fix_dates files df dry).log.getLast? =
        some (summaryLine (fix_dates files df dry).success
          (fix_dates files df dry).errors)) := by
  refine ⟨rfl, rfl, fun df dry n hmiss hc => ?_, fun files df dry hmiss => ?_⟩
  · obtain ⟨e, he⟩ := lookupDate_missing_col df n hmiss
    have ho : entryOutcome df dry n = .errored e := by
      unfold entryOutcome
      rw [he]
    refine ⟨e, ho, ?_, ?_⟩
    · unfold lineOf
      simp [hc, ho]
    · unfold errP
      simp [hc, ho]
  · have herr : ∀ n, errP df dry n = !isCsvName n := by
      intro n
      cases hc : isCsvName n with
      | true => unfold errP; simp [hc]
      | false =>
        obtain ⟨e, he⟩ := lookupDate_missing_col df n hmiss
        have ho : entryOutcome df dry n = .errored e := by
          unfold entryOutcome
          rw [he]
        unfold errP
        simp [hc, ho]
    have hsucc : ∀ n, succP df dry n = false := by
      intro n
      cases hc : isCsvName n with
      | true => unfold succP; simp [hc]
      | false =>
        obtain ⟨e, he⟩ := lookupDate_missing_col df n hmiss
        have ho : entryOutcome df dry n = .errored e := by
          unfold entryOutcome
          rw [he]
        unfold succP
        simp [hc, ho]
    rw [fix_dates_spec]
    refine ⟨?_, ?_, ?_⟩
    · exact List.countP_congr fun x _ => by rw [herr x]
    · simp only []
      rw [List.countP_eq_zero]
      intro a ha
      simp [hsucc a]
    · exact List.getLast?_concat _

/-- Witness for C9: a table with no columns at all makes the entry
`photo1.jpg` error at match time. -/
theorem C9_missing_column_surfaces_at_match_time_witness :
    ∃ e, entryOutcome ⟨false, false, []⟩ false "photo1.jpg" = .errored e ∧
      lineOf ⟨false, false, []⟩ false "photo1.jpg" =
        some (errLine "photo1.jpg" e) ∧
      errP ⟨false, false, []⟩ false "photo1.jpg" = true :=
  C9_missing_column_surfaces_at_match_time.2.2.1 ⟨false, false, []⟩ false
    "photo1.jpg" (Or.inl rfl) (by decide)

/-- Preview and non-preview agree on whether an entry counts as a success. -/
theorem succP_mode (df : DataFrame) (n : String) :
    succP df true n = succP df false n := by
  unfold succP entryOutcome
  cases hl : lookupDate df n with
  | error e => rfl
  | ok o =>
    cases o with
    | none => rfl
    | some raw => cases hp : parseDT raw <;> simp [hp]

/-- Preview and non-preview agree on whether an entry counts as an error. -/
theorem errP_mode (df : DataFrame) (n : String) :
    errP df true n = errP df false n := by
  unfold errP entryOutcome
  cases hl : lookupDate df n with
  | error e => rfl
  | ok o =>
    cases o with
    | none => rfl
    | some raw => cases hp : parseDT raw <;> simp [hp]

/-- C10: a preview run ends with the same success and error totals as the
non-preview run on the same folder and table; every matched entry with a
parseable date counts as a success in preview mode too, so the summary of a
preview run — which is still its last printed line — reports those
previewed files in its updated total. -/
theorem C10_preview_totals_equal_apply_totals :
    ∀ (files : List FileEntry) (df : DataFrame),
      (fix_dates files df true).success = (fix_dates files df false).success ∧
      (fix_dates files df true).errors = (fix_dates files df false).errors ∧
      (∀ n raw dt, isCsvName n = false → lookupDate df n = .ok (some raw) →
        parseDT raw = some dt → succP df true n = true) ∧
      ∀ dry, (fix_dates files df dry).log.getLast? =
        some (summaryLine (fix_dates files df dry).success
          (fix_dates files df dry).errors) := by
  intro files df
  refine ⟨?_, ?_, fun n raw dt hc hlk hp => ?_, fun dry => ?_⟩
  · rw [fix_dates_spec, fix_dates_spec]
    exact List.countP_congr fun x _ => by rw [succP_mode df x]
  · rw [fix_dates_spec, fix_dates_spec]
    exact List.countP_congr fun x _ => by rw [errP_mode df x]
  · have ho : entryOutcome df true n = .wouldSet (strftimeOut dt) := by
      unfold entryOutcome
      rw [hlk]
      dsimp only
      rw [hp]
      simp
    unfold succP
    simp [hc, ho]
  · rw [fix_dates_spec]
    exact List.getLast?_concat _

/-- Witness for C10: a matched parseable entry counts as a success in
preview mode. -/
theorem C10_preview_totals_equal_apply_totals_witness :
    succP ⟨true, true, [⟨"a.jpg", "Monday January 02,2023 03:04 PM GMT"⟩]⟩
      true "a.jpg" = true :=
  (C10_preview_totals_equal_apply_totals []
      ⟨true, true, [⟨"a.jpg", "Monday January 02,2023 03:04 PM GMT"⟩]⟩).2.2.1
    "a.jpg" "Monday January 02,2023 03:04 PM GMT" ⟨2023, 1, 2, 15, 4⟩
    (by decide) rfl (by decide)

end FixPhotoDates
